import Mathlib

/-!
A shallow embedding of the detection-and-automation worker of the
HextechReady repository (src/detect.rs and src/app.rs), together with
proofs of the specified properties.

Modelling conventions:
* `f32` scores, scales and thresholds are modelled as exact rationals (`ℚ`).
* `std::time::Instant` is modelled as a `Nat` counting nanoseconds; a
  `Duration` is a `Nat` of nanoseconds.  `Instant::duration_since`
  saturates at zero, exactly like `Nat` subtraction.
* External library calls (imageproc's `match_template`, image's `resize`,
  the mouse click in `input::click_at`, the crossbeam channel sends and
  the screen capture) are abstracted as explicit parameters carrying the
  shapes the libraries document; the logic of this repository is
  translated statement by statement.
-/

namespace LolAutoAccept

/-- A grayscale pixel grid (`image::GrayImage`): a width, a height, and the
luma value at each coordinate.  Pixel content never influences the control
flow verified here, so it is kept as an abstract function. -/
structure GrayImage where
  width : Nat
  height : Nat
  pix : Nat → Nat → Nat

/-- One scaled variant of the marker template (src/detect.rs,
`TemplateVariant { scale, image }`). -/
structure TemplateVariant where
  scale : ℚ
  image : GrayImage

/-- `TemplateVariant::width` (src/detect.rs): the width of the variant's image. -/
def TemplateVariant.width (v : TemplateVariant) : Nat := v.image.width

/-- `TemplateVariant::height` (src/detect.rs): the height of the variant's image. -/
def TemplateVariant.height (v : TemplateVariant) : Nat := v.image.height

/-- `Template` (src/detect.rs): the ordered list of scaled variants. -/
structure Template where
  variants : List TemplateVariant

/-- `Detection` (src/detect.rs): score, top-left position in frame-local
pixel coordinates, matched template size, and the scale factor. -/
structure Detection where
  score : ℚ
  position : Nat × Nat
  template_size : Nat × Nat
  scale : ℚ
  deriving DecidableEq

/-- The fixed ladder of template scale factors
(`TEMPLATE_SCALE_FACTORS`, src/detect.rs lines 7-9). -/
def TEMPLATE_SCALE_FACTORS : List ℚ :=
  [0.65, 0.7, 0.75, 0.8, 0.85, 0.9, 0.95, 1.0, 1.05, 1.1, 1.15, 1.2, 1.25, 1.3]

/-- `f32::EPSILON` = 2⁻²³, used by `build_variants` to test a scale factor
for floating-point equality with `1.0`. -/
def EPSILON_F32 : ℚ := 1 / 2 ^ 23

/-- The response surface returned by imageproc's `match_template`: one
score per top-left alignment position. -/
structure Surface where
  width : Nat
  height : Nat
  score : Nat → Nat → ℚ

/-- Modelled external library call: imageproc's
`match_template(frame, tmpl, CrossCorrelationNormalized)` returns a buffer
of dimensions `(W − w + 1) × (H − h + 1)` holding one correlation score per
top-left alignment of `tmpl` inside `frame`.  The numeric scores themselves
are abstracted by the parameter `ncc`. -/
def match_template (ncc : GrayImage → GrayImage → Nat → Nat → ℚ)
    (frame tmpl : GrayImage) : Surface :=
  ⟨frame.width - tmpl.width + 1, frame.height - tmpl.height + 1, ncc frame tmpl⟩

/-- The order in which `ImageBuffer::enumerate_pixels` visits a buffer:
row-major, the x coordinate varying fastest. -/
def pixelOrder (result : Surface) : List (Nat × Nat) :=
  (List.range result.height).flatMap fun y => (List.range result.width).map fun x => (x, y)

/-- `find_peak` (src/detect.rs lines 121-131): scan every pixel of the
response surface in `enumerate_pixels` order, keeping the running best and
replacing it only on a strictly greater score. -/
def find_peak (result : Surface) : Option (ℚ × Nat × Nat) :=
  (pixelOrder result).foldl
    (fun best p =>
      let score := result.score p.1 p.2
      match best with
      | some (best_score, bx, byy) =>
        if score ≤ best_score then some (best_score, bx, byy) else some (score, p.1, p.2)
      | none => some (score, p.1, p.2))
    none

/-- The body of the variant loop of `detect` (src/detect.rs lines 65-91):
skip the variant if it exceeds the frame in width or in height; otherwise
run `match_template` and `find_peak`, and adopt the variant's local best
exactly when its score is strictly greater than the current best's
(`detection.score > current.score`). -/
def detectStep (ncc : GrayImage → GrayImage → Nat → Nat → ℚ) (frame : GrayImage)
    (best : Option Detection) (variant : TemplateVariant) : Option Detection :=
  if frame.width < variant.width ∨ frame.height < variant.height then best
  else
    match find_peak (match_template ncc frame variant.image) with
    | some (score, x, y) =>
      let detection : Detection :=
        ⟨score, (x, y), (variant.width, variant.height), variant.scale⟩
      match best with
      | none => some detection
      | some current =>
        if current.score < detection.score then some detection else some current
    | none => best

/-- `detect` (src/detect.rs lines 62-94): fold the variant loop over the
template's variants in order, starting from no best. -/
def detect (ncc : GrayImage → GrayImage → Nat → Nat → ℚ)
    (frame : GrayImage) (template : Template) : Option Detection :=
  template.variants.foldl (detectStep ncc frame) none

/-- Modelled external library call: `image::imageops::resize` with the
Lanczos3 filter returns a buffer of exactly the requested dimensions; the
resampled pixel content is abstracted by the parameter `rs`. -/
def resize (rs : GrayImage → Nat → Nat → Nat → Nat → Nat)
    (img : GrayImage) (w h : Nat) : GrayImage :=
  ⟨w, h, rs img w h⟩

/-- The target dimension computed by `build_variants`
(src/detect.rs lines 103-104): `((n as f32 * scale).round() as i32).max(1) as u32`.
Operands are nonnegative, so `f32::round` (half away from zero) agrees
with `round : ℚ → ℤ` (half up). -/
def targetDim (n : Nat) (scale : ℚ) : Nat :=
  (max 1 (round ((n : ℚ) * scale))).toNat

/-- The body of `build_variants` (src/detect.rs lines 96-119) as structural
recursion over the list of scale factors: skip nonpositive factors, skip
factors whose rounded target size is below 4 in either dimension, reuse the
base image when the factor is within `f32::EPSILON` of 1.0, otherwise
resample to the target dimensions. -/
def build_variants_from (rs : GrayImage → Nat → Nat → Nat → Nat → Nat)
    (base : GrayImage) : List ℚ → List TemplateVariant
  | [] => []
  | scale :: rest =>
    if scale ≤ 0 then build_variants_from rs base rest
    else
      let new_w := targetDim base.width scale
      let new_h := targetDim base.height scale
      if new_w < 4 ∨ new_h < 4 then build_variants_from rs base rest
      else
        let image := if |scale - 1| < EPSILON_F32 then base else resize rs base new_w new_h
        ⟨scale, image⟩ :: build_variants_from rs base rest

/-- `build_variants` (src/detect.rs lines 96-119): one variant per retained
factor of the scale ladder, in ladder order. -/
def build_variants (rs : GrayImage → Nat → Nat → Nat → Nat → Nat)
    (base : GrayImage) : List TemplateVariant :=
  build_variants_from rs base TEMPLATE_SCALE_FACTORS

/-- `AppConfig` (src/config.rs): the user-adjustable parameters consumed by
the worker.  `threshold` is an `f32` modelled as `ℚ`. -/
structure AppConfig where
  threshold : ℚ
  interval_ms : Nat
  cooldown_ms : Nat
  monitor_index : Nat
  click_offset_x : Int
  click_offset_y : Int
  template_path : Option String

/-- `CapturedFrame` (src/capture.rs): a grayscale image plus the absolute
screen origin of the captured region and the monitor's scale factor. -/
structure CapturedFrame where
  image : GrayImage
  origin : Int × Int
  scale_factor : ℚ

/-- `WorkerEvent` (src/app.rs lines 493-511): the closed set of events the
worker sends to the observer. -/
inductive WorkerEvent where
  | detection (score : ℚ) (image_coords : Nat × Nat) (screen_coords : Int × Int)
      (template_size : Nat × Nat) (scale : ℚ)
  | clicked (screen_coords : Int × Int)
  | cooldownActive (score : ℚ) (remaining_ms : Nat)
  | error (message : String)
  | info (message : String)
  | stopped
  deriving DecidableEq

/-- Nanoseconds per millisecond: `Duration::as_millis` truncates a
nanosecond count to whole milliseconds by dividing by this constant. -/
def NANOS_PER_MILLI : Nat := 1000000

/-- `handle_frame` (src/app.rs lines 565-627).  `now` is the value read from
`Instant::now()` for this tick and `last_click` the gate state, both in
nanoseconds; `cooldown` is the cooldown duration in nanoseconds.  The
external action sink `input::click_at` is abstracted by `click`.  Returns
the list of events sent on the channel, in order, together with the updated
gate state.  Template sizes are nonnegative, so the `i32` halving
`(size as i32) / 2` is `Nat` division by 2. -/
def handle_frame (ncc : GrayImage → GrayImage → Nat → Nat → ℚ)
    (click : Int → Int → Except String Unit)
    (config : AppConfig) (template : Template) (frame : CapturedFrame)
    (last_click : Option Nat) (now : Nat) (cooldown : Nat) :
    List WorkerEvent × Option Nat :=
  match detect ncc frame.image template with
  | none => ([], last_click)
  | some result =>
    if result.score < config.threshold then ([], last_click)
    else
      let fire : List WorkerEvent × Option Nat :=
        let template_half_w : Int := (result.template_size.1 / 2 : Nat)
        let template_half_h : Int := (result.template_size.2 / 2 : Nat)
        let screen_x :=
          frame.origin.1 + (result.position.1 : Int) + template_half_w + config.click_offset_x
        let screen_y :=
          frame.origin.2 + (result.position.2 : Int) + template_half_h + config.click_offset_y
        let det := WorkerEvent.detection result.score result.position (screen_x, screen_y)
          result.template_size result.scale
        match click screen_x screen_y with
        | .error err => ([det, .error ("Click failed: " ++ err)], last_click)
        | .ok _ => ([det, .clicked (screen_x, screen_y)], some now)
      match last_click with
      | some last =>
        let elapsed := now - last
        if elapsed < cooldown then
          let remaining := cooldown - elapsed
          ([.cooldownActive result.score (remaining / NANOS_PER_MILLI)], last_click)
        else fire
      | none => fire

/-- The environment one iteration of the worker loop interacts with: the
value of the cancellation flag read at the top of the iteration, the result
of `capture::capture_monitor_gray`, the value of `Instant::now()`, and the
value of the flag read again after the tick, before sleeping
(src/app.rs lines 537-559). -/
structure TickEnv where
  flag_top : Bool
  capture : Except String CapturedFrame
  now : Nat
  flag_after : Bool

/-- The `while !stop_flag` loop of `run_worker` (src/app.rs lines 537-561),
including the final `send(Stopped)`: if the flag reads true at the top,
exit and send `Stopped`; otherwise handle the captured frame (or send a
capture error and back off), then if the flag reads true before the
inter-tick sleep, break and send `Stopped`.  An exhausted environment list
models a still-running worker with no further observed events. -/
def run_worker_loop (ncc : GrayImage → GrayImage → Nat → Nat → ℚ)
    (click : Int → Int → Except String Unit)
    (config : AppConfig) (template : Template) (cooldown : Nat) :
    Option Nat → List TickEnv → List WorkerEvent
  | _, [] => []
  | last_click, t :: rest =>
    if t.flag_top then [.stopped]
    else
      let step :=
        match t.capture with
        | .ok frame => handle_frame ncc click config template frame last_click t.now cooldown
        | .error err => ([.error ("Capture failed: " ++ err)], last_click)
      step.1 ++
        (if t.flag_after then [.stopped]
         else run_worker_loop ncc click config template cooldown step.2 rest)

/-- `run_worker` (src/app.rs lines 513-563): send `Info("Monitoring active")`
first; if that send fails (receiver disconnected) return at once, otherwise
enter the polling loop with an empty gate state and the cooldown taken from
`config.cooldown_ms`.  `sendRes n` is the success of the n-th channel send;
the source inspects only the first send's result (every later send discards
its result with `let _ =`).  The returned list is the sequence of events
the worker hands to the channel, in order. -/
def run_worker (ncc : GrayImage → GrayImage → Nat → Nat → ℚ)
    (click : Int → Int → Except String Unit)
    (config : AppConfig) (template : Template)
    (sendRes : Nat → Bool) (env : List TickEnv) : List WorkerEvent :=
  let cooldown := config.cooldown_ms * NANOS_PER_MILLI
  if sendRes 0 then
    .info "Monitoring active" ::
      run_worker_loop ncc click config template cooldown none env
  else
    [.info "Monitoring active"]

/-! ### Helper definitions used by the proofs -/

/-- Generic step of a "keep the best, replace only on a strictly greater
score" selection fold; `g` produces the candidate (score, payload) offered
by each list element, if any.  Both `find_peak` and the variant loop of
`detect` are instances of this step. -/
def chooseStep {α β : Type} (g : α → Option (ℚ × β))
    (b : Option (ℚ × β)) (a : α) : Option (ℚ × β) :=
  match g a with
  | none => b
  | some c =>
    match b with
    | none => some c
    | some cur => if cur.1 < c.1 then some c else some cur

/-- The candidate offered by one surface position to `find_peak`. -/
def peakCand (s : Surface) (p : Nat × Nat) : Option (ℚ × (Nat × Nat)) :=
  some (s.score p.1 p.2, p)

/-- The candidate a template variant offers to the selection loop of
`detect`: its local best, paired with its score. -/
def localBest (ncc : GrayImage → GrayImage → Nat → Nat → ℚ) (frame : GrayImage)
    (variant : TemplateVariant) : Option (ℚ × Detection) :=
  if frame.width < variant.width ∨ frame.height < variant.height then none
  else
    match find_peak (match_template ncc frame variant.image) with
    | some (score, x, y) =>
      some (score, ⟨score, (x, y), (variant.width, variant.height), variant.scale⟩)
    | none => none

/-- "Strictly earlier in row-major (`enumerate_pixels`) order": a smaller
row, or the same row and a smaller column. -/
def rowMajorLt (q p : Nat × Nat) : Prop :=
  q.2 < p.2 ∨ (q.2 = p.2 ∧ q.1 < p.1)

/-- The retention test of `build_variants`, as the source states it: a
scale factor is kept unless it is nonpositive or its rounded target size
is below 4 in either dimension. -/
def keepScale (base : GrayImage) (scale : ℚ) : Bool :=
  !decide (scale ≤ 0) && !decide (targetDim base.width scale < 4) &&
    !decide (targetDim base.height scale < 4)

/-! ### Concrete inputs used by the witness theorems -/

/-- A correlation oracle that scores every alignment 0. -/
def ncc0 : GrayImage → GrayImage → Nat → Nat → ℚ := fun _ _ _ _ => 0

/-- A resampler whose pixel content is all zero. -/
def rs0 : GrayImage → Nat → Nat → Nat → Nat → Nat := fun _ _ _ _ _ => 0

/-- A 4×4 all-black base image. -/
def base44 : GrayImage := ⟨4, 4, fun _ _ => 0⟩

/-- A 4×4 frame. -/
def frame44 : GrayImage := ⟨4, 4, fun _ _ => 0⟩

/-- A 5×5 frame. -/
def frame55 : GrayImage := ⟨5, 5, fun _ _ => 0⟩

/-- A 4×4 all-white image, distinguishable from `base44` by its pixels. -/
def img2 : GrayImage := ⟨4, 4, fun _ _ => 1⟩

/-- A two-variant template with integer scale labels, used to exhibit the
tie-breaking of `detect`. -/
def tmpl3 : Template := ⟨[⟨1, base44⟩, ⟨2, img2⟩]⟩

/-- A correlation oracle giving the `base44` variant a tied double peak at
(1,0) and (0,1) and the `img2` variant a constant tied surface. -/
def ncc3 : GrayImage → GrayImage → Nat → Nat → ℚ := fun _ t x y =>
  if t.pix 0 0 = 0 then (if (x = 1 ∧ y = 0) ∨ (x = 0 ∧ y = 1) then 5 else 1) else 5

/-- A 3×3 frame, smaller than every variant of `tmpl3`. -/
def frame33 : GrayImage := ⟨3, 3, fun _ _ => 0⟩

/-- The response surface of the first `tmpl3` variant inside `frame55`. -/
def surf3 : Surface := match_template ncc3 frame55 base44

/-- A worker configuration with integral threshold 1 and click offset (7, -3). -/
def cfg1 : AppConfig := ⟨1, 120, 4000, 0, 7, -3, none⟩

/-- A captured frame around `frame55` with screen origin (100, 200). -/
def cap55 : CapturedFrame := ⟨frame55, (100, 200), 1⟩

/-- An action sink that always succeeds. -/
def clickOk : Int → Int → Except String Unit := fun _ _ => .ok ()

/-- An action sink that always fails. -/
def clickFail : Int → Int → Except String Unit := fun _ _ => .error "boom"

/-- A tick environment whose flag is already set at the top. -/
def tickStopTop : TickEnv := ⟨true, .error "x", 0, false⟩

/-- A tick environment that captures `cap55` and observes the flag set
after processing, before the sleep. -/
def tickRun : TickEnv := ⟨false, .ok cap55, 777, true⟩

/-- A tick environment that captures `cap55` with the flag never set. -/
def tickQuiet : TickEnv := ⟨false, .ok cap55, 777, false⟩

/-- A channel on which every send succeeds. -/
def sendAll : Nat → Bool := fun _ => true

/-- A channel whose receiver is disconnected from the start. -/
def sendNone : Nat → Bool := fun _ => false

/-- A channel that accepts only the first send. -/
def sendFirst : Nat → Bool := fun n => n == 0

/-! ### Characterization of the selection fold -/

theorem chooseFold_some_start {α β : Type} (g : α → Option (ℚ × β)) :
    ∀ (l : List α) (cur : ℚ × β), ∃ r, l.foldl (chooseStep g) (some cur) = some r ∧
      ((r = cur ∧ ∀ a ∈ l, ∀ c, g a = some c → c.1 ≤ cur.1) ∨
       (∃ l₁ a l₂, l = l₁ ++ a :: l₂ ∧ g a = some r ∧ cur.1 < r.1 ∧
         (∀ a' ∈ l₁, ∀ c, g a' = some c → c.1 < r.1) ∧
         (∀ a' ∈ l₂, ∀ c, g a' = some c → c.1 ≤ r.1))) := by
  intro l
  induction l with
  | nil => exact fun cur => ⟨cur, rfl, Or.inl ⟨rfl, by simp⟩⟩
  | cons a t ih =>
    intro cur
    cases hga : g a with
    | none =>
      obtain ⟨r, hr, hcase⟩ := ih cur
      refine ⟨r, by simpa [chooseStep, hga] using hr, ?_⟩
      rcases hcase with ⟨rfl, hall⟩ | ⟨l₁, a', l₂, rfl, hg, hlt, hl₁, hl₂⟩
      · refine Or.inl ⟨rfl, ?_⟩
        intro x hx c hc
        rcases List.mem_cons.1 hx with rfl | hx
        · simp [hga] at hc
        · exact hall x hx c hc
      · refine Or.inr ⟨a :: l₁, a', l₂, rfl, hg, hlt, ?_, hl₂⟩
        intro x hx c hc
        rcases List.mem_cons.1 hx with rfl | hx
        · simp [hga] at hc
        · exact hl₁ x hx c hc
    | some c =>
      by_cases hcc : cur.1 < c.1
      · obtain ⟨r, hr, hcase⟩ := ih c
        refine ⟨r, by simpa [chooseStep, hga, hcc] using hr, Or.inr ?_⟩
        rcases hcase with ⟨rfl, hall⟩ | ⟨l₁, a', l₂, rfl, hg, hlt, hl₁, hl₂⟩
        · exact ⟨[], a, t, rfl, hga, hcc, by simp, hall⟩
        · refine ⟨a :: l₁, a', l₂, rfl, hg, lt_trans hcc hlt, ?_, hl₂⟩
          intro x hx e he
          rcases List.mem_cons.1 hx with rfl | hx
          · rw [hga] at he
            exact (Option.some.injEq _ _ ▸ he : c = e) ▸ hlt
          · exact hl₁ x hx e he
      · obtain ⟨r, hr, hcase⟩ := ih cur
        refine ⟨r, by simpa [chooseStep, hga, hcc] using hr, ?_⟩
        rcases hcase with ⟨rfl, hall⟩ | ⟨l₁, a', l₂, rfl, hg, hlt, hl₁, hl₂⟩
        · refine Or.inl ⟨rfl, ?_⟩
          intro x hx e he
          rcases List.mem_cons.1 hx with rfl | hx
          · rw [hga] at he
            exact (Option.some.injEq _ _ ▸ he : c = e) ▸ le_of_not_lt hcc
          · exact hall x hx e he
        · refine Or.inr ⟨a :: l₁, a', l₂, rfl, hg, hlt, ?_, hl₂⟩
          intro x hx e he
          rcases List.mem_cons.1 hx with rfl | hx
          · rw [hga] at he
            exact (Option.some.injEq _ _ ▸ he : c = e) ▸ lt_of_le_of_lt (le_of_not_lt hcc) hlt
          · exact hl₁ x hx e he

theorem chooseFold_from_none {α β : Type} (g : α → Option (ℚ × β)) :
    ∀ (l : List α) (r : ℚ × β), l.foldl (chooseStep g) none = some r →
      ∃ l₁ a l₂, l = l₁ ++ a :: l₂ ∧ g a = some r ∧
        (∀ a' ∈ l₁, ∀ c, g a' = some c → c.1 < r.1) ∧
        (∀ a' ∈ l₂, ∀ c, g a' = some c → c.1 ≤ r.1) := by
  intro l
  induction l with
  | nil => intro r hr; simp at hr
  | cons a t ih =>
    intro r hr
    cases hga : g a with
    | none =>
      rw [List.foldl_cons] at hr
      simp only [chooseStep, hga] at hr
      obtain ⟨l₁, a', l₂, rfl, hg, hl₁, hl₂⟩ := ih r hr
      refine ⟨a :: l₁, a', l₂, rfl, hg, ?_, hl₂⟩
      intro x hx c hc
      rcases List.mem_cons.1 hx with rfl | hx
      · simp [hga] at hc
      · exact hl₁ x hx c hc
    | some c =>
      rw [List.foldl_cons] at hr
      simp only [chooseStep, hga] at hr
      obtain ⟨r', hr', hcase⟩ := chooseFold_some_start g t c
      rw [hr'] at hr
      obtain rfl : r' = r := by simpa using hr
      rcases hcase with ⟨rfl, hall⟩ | ⟨l₁, a', l₂, rfl, hg, hlt, hl₁, hl₂⟩
      · exact ⟨[], a, t, rfl, hga, by simp, hall⟩
      · refine ⟨a :: l₁, a', l₂, rfl, hg, ?_, hl₂⟩
        intro x hx e he
        rcases List.mem_cons.1 hx with rfl | hx
        · rw [hga] at he
          exact (Option.some.injEq _ _ ▸ he : c = e) ▸ hlt
        · exact hl₁ x hx e he

/-! ### find_peak as a selection fold -/

theorem find_peak_eq (s : Surface) :
    find_peak s = (pixelOrder s).foldl (chooseStep (peakCand s)) none := by
  unfold find_peak
  apply List.foldl_ext
  intro b p _
  rcases b with _ | ⟨bs, bx, byy⟩
  · rfl
  · simp only [chooseStep, peakCand]
    by_cases h : s.score p.1 p.2 ≤ bs
    · rw [if_pos h, if_neg (not_lt.2 h)]
    · rw [if_neg h, if_pos (lt_of_not_le h)]

theorem mem_pixelOrder {s : Surface} {p : Nat × Nat} :
    p ∈ pixelOrder s ↔ p.1 < s.width ∧ p.2 < s.height := by
  obtain ⟨x, y⟩ := p
  simp only [pixelOrder, List.mem_flatMap, List.mem_map, List.mem_range]
  constructor
  · rintro ⟨b, hb, a, ha, h⟩
    obtain ⟨rfl, rfl⟩ : a = x ∧ b = y := by
      exact ⟨congrArg Prod.fst h, congrArg Prod.snd h⟩
    exact ⟨ha, hb⟩
  · rintro ⟨hx, hy⟩
    exact ⟨y, hy, x, hx, rfl⟩

theorem pixelOrder_pairwise (s : Surface) :
    (pixelOrder s).Pairwise rowMajorLt := by
  unfold pixelOrder
  rw [List.pairwise_flatMap]
  constructor
  · intro y _
    rw [List.pairwise_map]
    exact (List.pairwise_lt_range _).imp fun h => Or.inr ⟨rfl, h⟩
  · refine (List.pairwise_lt_range _).imp ?_
    intro y₁ y₂ h q hq p hp
    simp only [List.mem_map, List.mem_range] at hq hp
    obtain ⟨x₁, -, rfl⟩ := hq
    obtain ⟨x₂, -, rfl⟩ := hp
    exact Or.inl h

/-- Internal characterization of `find_peak`: the returned triple is the
score and position of a surface pixel, the score is the maximum of the
surface, and every strictly earlier position (row-major) scores strictly
less. -/
theorem find_peak_spec {s : Surface} {sc : ℚ} {x y : Nat}
    (h : find_peak s = some (sc, x, y)) :
    x < s.width ∧ y < s.height ∧ s.score x y = sc ∧
    (∀ a b, a < s.width → b < s.height → s.score a b ≤ sc) ∧
    (∀ a b, a < s.width → b < s.height → rowMajorLt (a, b) (x, y) →
      s.score a b < sc) := by
  rw [find_peak_eq] at h
  obtain ⟨l₁, p, l₂, hsplit, hg, hl₁, hl₂⟩ := chooseFold_from_none (peakCand s) _ _ h
  obtain ⟨hsc, hp⟩ : s.score p.1 p.2 = sc ∧ p = (x, y) := by
    simpa [peakCand, Prod.ext_iff, and_assoc] using hg
  subst hp
  have hmem : (x, y) ∈ pixelOrder s := hsplit ▸ List.mem_append_right l₁ (List.mem_cons_self _ _)
  obtain ⟨hx, hy⟩ := mem_pixelOrder.1 hmem
  have hmax : ∀ a b, a < s.width → b < s.height → s.score a b ≤ sc := by
    intro a b ha hb
    have hab : (a, b) ∈ pixelOrder s := mem_pixelOrder.2 ⟨ha, hb⟩
    rw [hsplit] at hab
    rcases List.mem_append.1 hab with hab | hab
    · exact le_of_lt (hl₁ _ hab _ rfl)
    · rcases List.mem_cons.1 hab with heq | hab
      · obtain ⟨rfl, rfl⟩ : a = x ∧ b = y :=
          ⟨congrArg Prod.fst heq, congrArg Prod.snd heq⟩
        exact le_of_eq hsc
      · exact hl₂ _ hab _ rfl
  refine ⟨hx, hy, hsc, hmax, ?_⟩
  intro a b ha hb hlt
  have hab : (a, b) ∈ pixelOrder s := mem_pixelOrder.2 ⟨ha, hb⟩
  have hpw := pixelOrder_pairwise s
  rw [hsplit, List.pairwise_append] at hpw
  obtain ⟨-, hpw₂, hcross⟩ := hpw
  rw [hsplit] at hab
  rcases List.mem_append.1 hab with hab | hab
  · exact hl₁ _ hab _ rfl
  · exfalso
    rcases List.mem_cons.1 hab with heq | hab
    · obtain ⟨rfl, rfl⟩ : a = x ∧ b = y :=
        ⟨congrArg Prod.fst heq, congrArg Prod.snd heq⟩
      unfold rowMajorLt at hlt
      simp only at hlt
      omega
    · have hcr := (List.pairwise_cons.1 hpw₂).1 _ hab
      unfold rowMajorLt at hcr hlt
      simp only at hcr hlt
      omega

/-! ### detect as a selection fold -/

theorem detectStep_coherent (ncc : GrayImage → GrayImage → Nat → Nat → ℚ)
    (frame : GrayImage) (b : Option Detection) (v : TemplateVariant) :
    chooseStep (localBest ncc frame) (b.map fun d => (d.score, d)) v =
      (detectStep ncc frame b v).map fun d => (d.score, d) := by
  by_cases hfit : frame.width < v.width ∨ frame.height < v.height
  · simp [chooseStep, localBest, detectStep, hfit]
  · simp only [chooseStep, localBest, detectStep, if_neg hfit]
    cases hfp : find_peak (match_template ncc frame v.image) with
    | none => rfl
    | some r =>
      obtain ⟨sc, x, y⟩ := r
      cases b with
      | none => rfl
      | some cur =>
        by_cases hlt : cur.score < sc
        · simp [hlt]
        · simp [hlt]

theorem detect_fold_coherent (ncc : GrayImage → GrayImage → Nat → Nat → ℚ)
    (frame : GrayImage) :
    ∀ (l : List TemplateVariant) (b : Option Detection),
      l.foldl (chooseStep (localBest ncc frame)) (b.map fun d => (d.score, d)) =
        (l.foldl (detectStep ncc frame) b).map fun d => (d.score, d) := by
  intro l
  induction l with
  | nil => intro b; rfl
  | cons v t ih =>
    intro b
    rw [List.foldl_cons, List.foldl_cons, detectStep_coherent, ih]

/-- Internal characterization of `detect`: a returned detection comes from
a fitting variant of the template; every fitting variant before it in the
list has a strictly smaller peak score, and every fitting variant after it
has a peak score at most the returned score. -/
theorem detect_spec {ncc : GrayImage → GrayImage → Nat → Nat → ℚ}
    {frame : GrayImage} {t : Template} {d : Detection}
    (h : detect ncc frame t = some d) :
    ∃ l₁ v l₂, t.variants = l₁ ++ v :: l₂ ∧
      v.width ≤ frame.width ∧ v.height ≤ frame.height ∧
      find_peak (match_template ncc frame v.image) =
        some (d.score, d.position.1, d.position.2) ∧
      d.template_size = (v.width, v.height) ∧ d.scale = v.scale ∧
      (∀ w ∈ l₁, w.width ≤ frame.width → w.height ≤ frame.height →
        ∀ sc p q, find_peak (match_template ncc frame w.image) = some (sc, p, q) →
          sc < d.score) ∧
      (∀ w ∈ l₂, w.width ≤ frame.width → w.height ≤ frame.height →
        ∀ sc p q, find_peak (match_template ncc frame w.image) = some (sc, p, q) →
          sc ≤ d.score) := by
  have hfold : t.variants.foldl (chooseStep (localBest ncc frame)) none =
      some (d.score, d) := by
    have hco := detect_fold_coherent ncc frame t.variants none
    unfold detect at h
    rw [h] at hco
    simpa using hco
  obtain ⟨l₁, v, l₂, hsplit, hg, hl₁, hl₂⟩ :=
    chooseFold_from_none (localBest ncc frame) _ _ hfold
  have hfit : ¬(frame.width < v.width ∨ frame.height < v.height) := by
    intro hcon
    simp [localBest, hcon] at hg
  obtain ⟨hw, hh⟩ : v.width ≤ frame.width ∧ v.height ≤ frame.height := by
    push_neg at hfit
    exact ⟨hfit.1, hfit.2⟩
  simp only [localBest, if_neg hfit] at hg
  cases hfp : find_peak (match_template ncc frame v.image) with
  | none => rw [hfp] at hg; simp at hg
  | some r =>
    obtain ⟨sc, x, y⟩ := r
    rw [hfp] at hg
    obtain ⟨hsc, hd⟩ : sc = d.score ∧
        (⟨sc, (x, y), (v.width, v.height), v.scale⟩ : Detection) = d := by
      constructor
      · exact congrArg Prod.fst (Option.some_injective _ hg)
      · exact congrArg Prod.snd (Option.some_injective _ hg)
    refine ⟨l₁, v, l₂, hsplit, hw, hh, ?_, ?_, ?_, ?_, ?_⟩
    · rw [hfp, ← hd]
    · rw [← hd]
    · rw [← hd]
    · intro w hw₁ hww hwh sc' p q hfpw
      have hcand : localBest ncc frame w = some (sc', ⟨sc', (p, q), (w.width, w.height), w.scale⟩) := by
        have hfit' : ¬(frame.width < w.width ∨ frame.height < w.height) := by
          push_neg
          exact ⟨hww, hwh⟩
        simp [localBest, hfit', hfpw]
      simpa [hsc] using hl₁ w hw₁ _ hcand
    · intro w hw₂ hww hwh sc' p q hfpw
      have hcand : localBest ncc frame w = some (sc', ⟨sc', (p, q), (w.width, w.height), w.scale⟩) := by
        have hfit' : ¬(frame.width < w.width ∨ frame.height < w.height) := by
          push_neg
          exact ⟨hww, hwh⟩
        simp [localBest, hfit', hfpw]
      simpa [hsc] using hl₂ w hw₂ _ hcand

/-- Internal lemma: a fold step over variants that are all skipped leaves
the accumulator unchanged. -/
theorem detect_fold_skip (ncc : GrayImage → GrayImage → Nat → Nat → ℚ)
    (frame : GrayImage) :
    ∀ (l : List TemplateVariant) (b : Option Detection),
      (∀ v ∈ l, frame.width < v.width ∨ frame.height < v.height) →
        l.foldl (detectStep ncc frame) b = b := by
  intro l
  induction l with
  | nil => intro b _; rfl
  | cons v t ih =>
    intro b hall
    rw [List.foldl_cons]
    have hv := hall v (List.mem_cons_self _ _)
    rw [detectStep, if_pos hv]
    exact ih b fun w hw => hall w (List.mem_cons_of_mem _ hw)

/-! ### Characterization of build_variants -/

theorem build_variants_from_spec (rs : GrayImage → Nat → Nat → Nat → Nat → Nat)
    (base : GrayImage) :
    ∀ l : List ℚ,
      ((build_variants_from rs base l).map (fun v => v.scale) =
        l.filter (keepScale base)) ∧
      (∀ v ∈ build_variants_from rs base l,
        keepScale base v.scale = true ∧
        (if |v.scale - 1| < EPSILON_F32 then v.image = base
         else v.image = resize rs base (targetDim base.width v.scale)
            (targetDim base.height v.scale))) := by
  intro l
  induction l with
  | nil => exact ⟨rfl, by simp [build_variants_from]⟩
  | cons s rest ih =>
    obtain ⟨ihmap, ihmem⟩ := ih
    by_cases hs0 : s ≤ 0
    · constructor
      · simpa [build_variants_from, hs0, keepScale, List.filter_cons] using ihmap
      · intro v hv
        rw [build_variants_from, if_pos hs0] at hv
        exact ihmem v hv
    · by_cases hsz : targetDim base.width s < 4 ∨ targetDim base.height s < 4
      · constructor
        · have hks : keepScale base s = false := by
            rcases hsz with h | h <;> simp [keepScale, h]
          simp only [build_variants_from, if_neg hs0, if_pos hsz, List.filter_cons, hks,
            Bool.false_eq_true, if_false]
          exact ihmap
        · intro v hv
          simp only [build_variants_from, if_neg hs0, if_pos hsz] at hv
          exact ihmem v hv
      · have hks : keepScale base s = true := by
          push_neg at hsz
          simp [keepScale, hs0, not_lt.2 hsz.1, not_lt.2 hsz.2]
        constructor
        · simp only [build_variants_from, if_neg hs0, if_neg hsz, List.map_cons,
            List.filter_cons, hks, if_true]
          exact congrArg (s :: ·) ihmap
        · intro v hv
          simp only [build_variants_from, if_neg hs0, if_neg hsz, List.mem_cons] at hv
          rcases hv with rfl | hv
          · refine ⟨hks, ?_⟩
            by_cases heps : |s - 1| < EPSILON_F32
            · simp only [heps, if_true, if_pos heps]
            · simp only [heps, if_false, if_neg heps]
          · exact ihmem v hv

theorem scale_factors_pos : ∀ s ∈ TEMPLATE_SCALE_FACTORS, 0 < s := by
  intro s hs
  fin_cases hs <;> norm_num

theorem scale_factors_eps :
    ∀ s ∈ TEMPLATE_SCALE_FACTORS, (|s - 1| < EPSILON_F32 ↔ s = 1) := by
  intro s hs
  fin_cases hs <;> rw [abs_lt] <;> norm_num [EPSILON_F32]

theorem targetDim_one (n : Nat) : targetDim n 1 = max 1 n := by
  rw [targetDim, mul_one, round_natCast]
  omega

/-- Internal lemma: every variant built from the scale ladder carries a
ladder scale, dimensions equal to the rounded target size (hence ≥ 4), the
base image itself if its scale is 1.0, and the resampled image otherwise. -/
theorem build_variants_mem {rs : GrayImage → Nat → Nat → Nat → Nat → Nat}
    {base : GrayImage} {v : TemplateVariant} (hv : v ∈ build_variants rs base) :
    v.scale ∈ TEMPLATE_SCALE_FACTORS ∧ 0 < v.scale ∧
    v.width = targetDim base.width v.scale ∧
    v.height = targetDim base.height v.scale ∧
    4 ≤ v.width ∧ 4 ≤ v.height ∧
    (v.scale = 1 → v.image = base) ∧
    (v.scale ≠ 1 → v.image =
      resize rs base (targetDim base.width v.scale) (targetDim base.height v.scale)) := by
  obtain ⟨hmap, hmem⟩ := build_variants_from_spec rs base TEMPLATE_SCALE_FACTORS
  obtain ⟨hkeep, himg⟩ := hmem v hv
  have hsc : v.scale ∈ TEMPLATE_SCALE_FACTORS := by
    have h1 : v.scale ∈ (build_variants rs base).map (fun v => v.scale) :=
      List.mem_map_of_mem _ hv
    rw [build_variants] at h1
    rw [hmap] at h1
    exact List.mem_of_mem_filter h1
  have hkeep' : 0 < v.scale ∧ 4 ≤ targetDim base.width v.scale ∧
      4 ≤ targetDim base.height v.scale := by
    simp only [keepScale, Bool.and_eq_true, Bool.not_eq_true', decide_eq_false_iff_not,
      not_le, not_lt] at hkeep
    exact ⟨hkeep.1.1, hkeep.1.2, hkeep.2⟩
  by_cases heps : |v.scale - 1| < EPSILON_F32
  · have hone : v.scale = 1 := (scale_factors_eps _ hsc).1 heps
    rw [if_pos heps] at himg
    have hwidth : v.width = targetDim base.width v.scale := by
      rw [hone, targetDim_one]
      have h4 : 4 ≤ targetDim base.width v.scale := hkeep'.2.1
      rw [hone, targetDim_one] at h4
      rw [TemplateVariant.width, himg]
      omega
    have hheight : v.height = targetDim base.height v.scale := by
      rw [hone, targetDim_one]
      have h4 : 4 ≤ targetDim base.height v.scale := hkeep'.2.2
      rw [hone, targetDim_one] at h4
      rw [TemplateVariant.height, himg]
      omega
    refine ⟨hsc, hkeep'.1, hwidth, hheight, ?_, ?_, fun _ => himg, fun hne => absurd hone hne⟩
    · rw [hwidth]; exact hkeep'.2.1
    · rw [hheight]; exact hkeep'.2.2
  · have hne : v.scale ≠ 1 := fun h1 =>
      heps ((scale_factors_eps _ hsc).2 h1)
    rw [if_neg heps] at himg
    have hwidth : v.width = targetDim base.width v.scale := by
      rw [TemplateVariant.width, himg]; rfl
    have hheight : v.height = targetDim base.height v.scale := by
      rw [TemplateVariant.height, himg]; rfl
    refine ⟨hsc, hkeep'.1, hwidth, hheight, ?_, ?_, fun h1 => absurd h1 hne, fun _ => himg⟩
    · rw [hwidth]; exact hkeep'.2.1
    · rw [hheight]; exact hkeep'.2.2

/-- Internal evaluation: the variants built from the 4×4 base image, by
direct computation of the ladder arithmetic. -/
theorem build_variants_eval : build_variants rs0 base44 =
    [⟨0.9, resize rs0 base44 4 4⟩, ⟨0.95, resize rs0 base44 4 4⟩, ⟨1.0, base44⟩,
     ⟨1.05, resize rs0 base44 4 4⟩, ⟨1.1, resize rs0 base44 4 4⟩,
     ⟨1.15, resize rs0 base44 5 5⟩, ⟨1.2, resize rs0 base44 5 5⟩,
     ⟨1.25, resize rs0 base44 5 5⟩, ⟨1.3, resize rs0 base44 5 5⟩] := by
  rw [build_variants, TEMPLATE_SCALE_FACTORS]
  norm_num [build_variants_from, targetDim, EPSILON_F32, base44, round_eq, abs_lt]
  exact ⟨rfl, rfl⟩

/-- Internal evaluation: `detect` on the 4×4 frame with the built template
returns the 0.9-scale variant's peak. -/
theorem detect_eval_c9 : detect ncc0 frame44 ⟨build_variants rs0 base44⟩ =
    some ⟨0, (0, 0), (4, 4), 0.9⟩ := by
  rw [build_variants_eval]
  rfl

/-- Internal evaluation: `detect` on the two-variant tie template picks the
first variant's first peak. -/
theorem detect_eval_c3 : detect ncc3 frame55 tmpl3 = some ⟨5, (1, 0), (4, 4), 1⟩ := by
  rfl

/-! ### Case lemmas for handle_frame -/

theorem handle_frame_no_detection
    {ncc : GrayImage → GrayImage → Nat → Nat → ℚ} {click : Int → Int → Except String Unit}
    {config : AppConfig} {template : Template} {frame : CapturedFrame}
    {last_click : Option Nat} {now cooldown : Nat}
    (h : detect ncc frame.image template = none) :
    handle_frame ncc click config template frame last_click now cooldown =
      ([], last_click) := by
  rw [handle_frame, h]

theorem handle_frame_below_threshold
    {ncc : GrayImage → GrayImage → Nat → Nat → ℚ} {click : Int → Int → Except String Unit}
    {config : AppConfig} {template : Template} {frame : CapturedFrame}
    {last_click : Option Nat} {now cooldown : Nat} {d : Detection}
    (hd : detect ncc frame.image template = some d)
    (hlt : d.score < config.threshold) :
    handle_frame ncc click config template frame last_click now cooldown =
      ([], last_click) := by
  rw [handle_frame, hd]
  simp only [if_pos hlt]

theorem handle_frame_suppressed
    {ncc : GrayImage → GrayImage → Nat → Nat → ℚ} {click : Int → Int → Except String Unit}
    {config : AppConfig} {template : Template} {frame : CapturedFrame}
    {last_click : Option Nat} {now cooldown : Nat} {d : Detection} {last : Nat}
    (hd : detect ncc frame.image template = some d)
    (hth : ¬ d.score < config.threshold)
    (hl : last_click = some last)
    (he : now - last < cooldown) :
    handle_frame ncc click config template frame last_click now cooldown =
      ([.cooldownActive d.score ((cooldown - (now - last)) / NANOS_PER_MILLI)],
        last_click) := by
  rw [handle_frame, hd]
  simp only [if_neg hth, hl, if_pos he]

theorem handle_frame_permitted
    {ncc : GrayImage → GrayImage → Nat → Nat → ℚ} {click : Int → Int → Except String Unit}
    {config : AppConfig} {template : Template} {frame : CapturedFrame}
    {last_click : Option Nat} {now cooldown : Nat} {d : Detection}
    (hd : detect ncc frame.image template = some d)
    (hth : ¬ d.score < config.threshold)
    (hgate : last_click = none ∨ ∃ last, last_click = some last ∧ cooldown ≤ now - last) :
    (∀ u, click
        (frame.origin.1 + (d.position.1 : Int) + ((d.template_size.1 / 2 : Nat) : Int) +
          config.click_offset_x)
        (frame.origin.2 + (d.position.2 : Int) + ((d.template_size.2 / 2 : Nat) : Int) +
          config.click_offset_y) = .ok u →
      handle_frame ncc click config template frame last_click now cooldown =
        ([.detection d.score d.position
            (frame.origin.1 + (d.position.1 : Int) + ((d.template_size.1 / 2 : Nat) : Int) +
              config.click_offset_x,
             frame.origin.2 + (d.position.2 : Int) + ((d.template_size.2 / 2 : Nat) : Int) +
              config.click_offset_y) d.template_size d.scale,
          .clicked
            (frame.origin.1 + (d.position.1 : Int) + ((d.template_size.1 / 2 : Nat) : Int) +
              config.click_offset_x,
             frame.origin.2 + (d.position.2 : Int) + ((d.template_size.2 / 2 : Nat) : Int) +
              config.click_offset_y)], some now)) ∧
    (∀ e, click
        (frame.origin.1 + (d.position.1 : Int) + ((d.template_size.1 / 2 : Nat) : Int) +
          config.click_offset_x)
        (frame.origin.2 + (d.position.2 : Int) + ((d.template_size.2 / 2 : Nat) : Int) +
          config.click_offset_y) = .error e →
      handle_frame ncc click config template frame last_click now cooldown =
        ([.detection d.score d.position
            (frame.origin.1 + (d.position.1 : Int) + ((d.template_size.1 / 2 : Nat) : Int) +
              config.click_offset_x,
             frame.origin.2 + (d.position.2 : Int) + ((d.template_size.2 / 2 : Nat) : Int) +
              config.click_offset_y) d.template_size d.scale,
          .error ("Click failed: " ++ e)], last_click)) := by
  rw [handle_frame, hd]
  simp only [if_neg hth]
  rcases hgate with hl | ⟨last, hl, hc⟩ <;> rw [hl]
  · constructor
    · intro u hu
      simp only [hu]
    · intro e he
      simp only [he]
  · simp only [if_neg (not_lt.2 hc)]
    constructor
    · intro u hu
      simp only [hu]
    · intro e he
      simp only [he]

/-- Internal evaluation: a full permitted tick against the concrete inputs,
with a succeeding sink. -/
theorem hf_eval_ok : handle_frame ncc3 clickOk cfg1 tmpl3 cap55 none 777 4000000000 =
    ([.detection 5 (1, 0) (110, 199) (4, 4) 1, .clicked (110, 199)], some 777) := by
  rfl

/-- Internal evaluation: a full permitted tick against the concrete inputs,
with a failing sink. -/
theorem hf_eval_fail : handle_frame ncc3 clickFail cfg1 tmpl3 cap55 none 777 4000000000 =
    ([.detection 5 (1, 0) (110, 199) (4, 4) 1, .error "Click failed: boom"], none) := by
  rfl

/-! ### Claim theorems -/

/-- C1: in every tick, a detection whose score is at least the configured
threshold qualifies and proceeds to the gate — the tick emits either the
cooldown event or a detection event for it; a detection whose score is
strictly below the threshold does not qualify, and in that case, as well as
when the matcher returns no detection, the tick emits no event at all and
leaves the gate state unchanged. -/
theorem tick_threshold_gating
    (ncc : GrayImage → GrayImage → Nat → Nat → ℚ) (click : Int → Int → Except String Unit)
    (config : AppConfig) (template : Template) (frame : CapturedFrame)
    (last_click : Option Nat) (now cooldown : Nat) :
    (detect ncc frame.image template = none →
      handle_frame ncc click config template frame last_click now cooldown =
        ([], last_click)) ∧
    (∀ d, detect ncc frame.image template = some d →
      (d.score < config.threshold →
        handle_frame ncc click config template frame last_click now cooldown =
          ([], last_click)) ∧
      (config.threshold ≤ d.score →
        (∃ r, (handle_frame ncc click config template frame last_click now cooldown).1 =
            [.cooldownActive d.score r]) ∨
        (∃ sc rest,
          (handle_frame ncc click config template frame last_click now cooldown).1 =
            .detection d.score d.position sc d.template_size d.scale :: rest))) := by
  refine ⟨fun h => handle_frame_no_detection h, fun d hd => ⟨fun hlt =>
    handle_frame_below_threshold hd hlt, fun hge => ?_⟩⟩
  have hth : ¬ d.score < config.threshold := not_lt.2 hge
  have hfire : (last_click = none ∨
      ∃ last, last_click = some last ∧ cooldown ≤ now - last) →
      (∃ sc rest,
        (handle_frame ncc click config template frame last_click now cooldown).1 =
          .detection d.score d.position sc d.template_size d.scale :: rest) := by
    intro hgate
    obtain ⟨hok, herr⟩ := handle_frame_permitted hd hth hgate
    cases hclick : click
        (frame.origin.1 + (d.position.1 : Int) + ((d.template_size.1 / 2 : Nat) : Int) +
          config.click_offset_x)
        (frame.origin.2 + (d.position.2 : Int) + ((d.template_size.2 / 2 : Nat) : Int) +
          config.click_offset_y) with
    | ok u => rw [hok u hclick]; exact ⟨_, _, rfl⟩
    | error e => rw [herr e hclick]; exact ⟨_, _, rfl⟩
  cases hl : last_click with
  | none =>
    rw [hl] at hfire
    exact Or.inr (hfire (Or.inl rfl))
  | some last =>
    rw [hl] at hfire
    by_cases he : now - last < cooldown
    · exact Or.inl ⟨_, by rw [handle_frame_suppressed hd hth rfl he]⟩
    · exact Or.inr (hfire (Or.inr ⟨last, rfl, not_lt.1 he⟩))

/-- Witness for C1 on a concrete qualifying tick: the threshold 1 is at
most the detected score 5, and the tick emits a detection event. -/
theorem tick_threshold_gating_witness :
    cfg1.threshold ≤ (5 : ℚ) ∧
    ((∃ r, (handle_frame ncc3 clickOk cfg1 tmpl3 cap55 none 777 4000000000).1 =
        [.cooldownActive 5 r]) ∨
     (∃ sc rest,
        (handle_frame ncc3 clickOk cfg1 tmpl3 cap55 none 777 4000000000).1 =
          WorkerEvent.detection 5 (1, 0) sc (4, 4) 1 :: rest)) :=
  ⟨by norm_num [cfg1],
    ((tick_threshold_gating ncc3 clickOk cfg1 tmpl3 cap55 none 777 4000000000).2
      ⟨5, (1, 0), (4, 4), 1⟩ detect_eval_c3).2 (by norm_num [cfg1])⟩

/-- C2: the gate decision for a qualifying detection.  With no prior action
recorded the tick is permitted (it proceeds to emit a detection event and
attempt the action).  With a prior action at `last`, letting
`elapsed = now - last`, the tick is permitted exactly when
`cooldown ≤ elapsed`; otherwise it is suppressed, emitting exactly one
cooldown event whose reported remaining time is `cooldown - elapsed` in
whole milliseconds, and leaving the gate state unchanged. -/
theorem gate_decision
    (ncc : GrayImage → GrayImage → Nat → Nat → ℚ) (click : Int → Int → Except String Unit)
    (config : AppConfig) (template : Template) (frame : CapturedFrame)
    (last_click : Option Nat) (now cooldown : Nat) (d : Detection)
    (hd : detect ncc frame.image template = some d)
    (hth : config.threshold ≤ d.score) :
    (last_click = none →
      ∃ sc rest, (handle_frame ncc click config template frame last_click now cooldown).1 =
        .detection d.score d.position sc d.template_size d.scale :: rest) ∧
    (∀ last, last_click = some last →
      (cooldown ≤ now - last →
        ∃ sc rest,
          (handle_frame ncc click config template frame last_click now cooldown).1 =
            .detection d.score d.position sc d.template_size d.scale :: rest) ∧
      (now - last < cooldown →
        handle_frame ncc click config template frame last_click now cooldown =
          ([.cooldownActive d.score ((cooldown - (now - last)) / NANOS_PER_MILLI)],
            last_click))) := by
  have hth' : ¬ d.score < config.threshold := not_lt.2 hth
  have hfire : (last_click = none ∨
      ∃ last, last_click = some last ∧ cooldown ≤ now - last) →
      ∃ sc rest,
        (handle_frame ncc click config template frame last_click now cooldown).1 =
          .detection d.score d.position sc d.template_size d.scale :: rest := by
    intro hgate
    obtain ⟨hok, herr⟩ := handle_frame_permitted hd hth' hgate
    cases hclick : click
        (frame.origin.1 + (d.position.1 : Int) + ((d.template_size.1 / 2 : Nat) : Int) +
          config.click_offset_x)
        (frame.origin.2 + (d.position.2 : Int) + ((d.template_size.2 / 2 : Nat) : Int) +
          config.click_offset_y) with
    | ok u => rw [hok u hclick]; exact ⟨_, _, rfl⟩
    | error e => rw [herr e hclick]; exact ⟨_, _, rfl⟩
  refine ⟨fun hl => hfire (Or.inl hl), fun last hl => ⟨fun hc =>
    hfire (Or.inr ⟨last, hl, hc⟩), fun he => handle_frame_suppressed hd hth' hl he⟩⟩

/-- Witness for C2 at both boundary instants with `last = 1000` ns and
`cooldown = 4000000000` ns (4000 ms): at `now = last + cooldown` the action
is permitted, and at `now = last + cooldown - 1 ms` the tick reports a
cooldown with exactly 1 ms remaining. -/
theorem gate_decision_witness :
    cfg1.threshold ≤ (5 : ℚ) ∧
    ((4000000000 : Nat) ≤ 4000001000 - 1000 ∧
      ∃ sc rest,
        (handle_frame ncc3 clickOk cfg1 tmpl3 cap55 (some 1000) 4000001000 4000000000).1 =
          WorkerEvent.detection 5 (1, 0) sc (4, 4) 1 :: rest) ∧
    ((3999001000 : Nat) - 1000 < 4000000000 ∧
      handle_frame ncc3 clickOk cfg1 tmpl3 cap55 (some 1000) 3999001000 4000000000 =
        ([.cooldownActive 5 1], some 1000)) := by
  refine ⟨by norm_num [cfg1], ⟨by norm_num, ?_⟩, ⟨by norm_num, ?_⟩⟩
  · exact ((gate_decision ncc3 clickOk cfg1 tmpl3 cap55 (some 1000) 4000001000 4000000000
      ⟨5, (1, 0), (4, 4), 1⟩ detect_eval_c3 (by norm_num [cfg1])).2 1000 rfl).1
      (by norm_num)
  · have h := ((gate_decision ncc3 clickOk cfg1 tmpl3 cap55 (some 1000) 3999001000 4000000000
      ⟨5, (1, 0), (4, 4), 1⟩ detect_eval_c3 (by norm_num [cfg1])).2 1000 rfl).2
      (by norm_num)
    simpa [NANOS_PER_MILLI] using h

/-- C5: for every permitted qualifying detection, the absolute screen
coordinates reported in the detection event and passed to the action sink
equal the frame origin plus the detection's frame-local position plus half
the matched variant's size plus the configured action offset, in both x
and y. -/
theorem action_coordinates
    (ncc : GrayImage → GrayImage → Nat → Nat → ℚ) (click : Int → Int → Except String Unit)
    (config : AppConfig) (template : Template) (frame : CapturedFrame)
    (last_click : Option Nat) (now cooldown : Nat) (d : Detection)
    (hd : detect ncc frame.image template = some d)
    (hth : config.threshold ≤ d.score)
    (hgate : last_click = none ∨ ∃ last, last_click = some last ∧ cooldown ≤ now - last) :
    ∃ rest,
      (handle_frame ncc click config template frame last_click now cooldown).1 =
        .detection d.score d.position
          (frame.origin.1 + (d.position.1 : Int) + ((d.template_size.1 / 2 : Nat) : Int) +
            config.click_offset_x,
           frame.origin.2 + (d.position.2 : Int) + ((d.template_size.2 / 2 : Nat) : Int) +
            config.click_offset_y) d.template_size d.scale :: rest ∧
      (∀ u, click
          (frame.origin.1 + (d.position.1 : Int) + ((d.template_size.1 / 2 : Nat) : Int) +
            config.click_offset_x)
          (frame.origin.2 + (d.position.2 : Int) + ((d.template_size.2 / 2 : Nat) : Int) +
            config.click_offset_y) = .ok u →
        rest = [.clicked
          (frame.origin.1 + (d.position.1 : Int) + ((d.template_size.1 / 2 : Nat) : Int) +
            config.click_offset_x,
           frame.origin.2 + (d.position.2 : Int) + ((d.template_size.2 / 2 : Nat) : Int) +
            config.click_offset_y)]) := by
  have hth' : ¬ d.score < config.threshold := not_lt.2 hth
  obtain ⟨hok, herr⟩ := handle_frame_permitted hd hth' hgate
  cases hclick : click
      (frame.origin.1 + (d.position.1 : Int) + ((d.template_size.1 / 2 : Nat) : Int) +
        config.click_offset_x)
      (frame.origin.2 + (d.position.2 : Int) + ((d.template_size.2 / 2 : Nat) : Int) +
        config.click_offset_y) with
  | ok u =>
    refine ⟨_, by rw [hok u hclick], fun u' _ => rfl⟩
  | error e =>
    refine ⟨_, by rw [herr e hclick], fun u' hu' => ?_⟩
    exact absurd hu' (by simp)

/-- Witness for C5: on the concrete permitted tick the detection event and
the click both carry origin + position + half size + offset =
(100+1+2+7, 200+0+2-3) = (110, 199). -/
theorem action_coordinates_witness :
    cfg1.threshold ≤ (5 : ℚ) ∧
    ∃ rest,
      (handle_frame ncc3 clickOk cfg1 tmpl3 cap55 none 777 4000000000).1 =
        WorkerEvent.detection 5 (1, 0) (110, 199) (4, 4) 1 :: rest ∧
      (∀ u, clickOk 110 199 = .ok u → rest = [.clicked (110, 199)]) := by
  refine ⟨by norm_num [cfg1], ?_⟩
  have h := action_coordinates ncc3 clickOk cfg1 tmpl3 cap55 none 777 4000000000
    ⟨5, (1, 0), (4, 4), 1⟩ detect_eval_c3 (by norm_num [cfg1]) (Or.inl rfl)
  simpa [cap55, cfg1] using h

/-- C6: if the action sink fails on a permitted qualifying detection, the
gate state is left unchanged, a click-failure error event is emitted after
the detection event and no clicked event is emitted, and a later qualifying
tick is again permitted (it attempts the action) rather than suppressed;
moreover the gate state changes only on sink success, in which case it
becomes the tick's `now` and a clicked event is emitted. -/
theorem sink_failure_keeps_gate :
    (∀ (ncc : GrayImage → GrayImage → Nat → Nat → ℚ)
        (click : Int → Int → Except String Unit)
        (config : AppConfig) (template : Template) (frame : CapturedFrame)
        (last_click : Option Nat) (now cooldown : Nat) (d : Detection) (e : String),
      detect ncc frame.image template = some d →
      config.threshold ≤ d.score →
      (last_click = none ∨ ∃ last, last_click = some last ∧ cooldown ≤ now - last) →
      click
        (frame.origin.1 + (d.position.1 : Int) + ((d.template_size.1 / 2 : Nat) : Int) +
          config.click_offset_x)
        (frame.origin.2 + (d.position.2 : Int) + ((d.template_size.2 / 2 : Nat) : Int) +
          config.click_offset_y) = .error e →
      handle_frame ncc click config template frame last_click now cooldown =
        ([.detection d.score d.position
            (frame.origin.1 + (d.position.1 : Int) + ((d.template_size.1 / 2 : Nat) : Int) +
              config.click_offset_x,
             frame.origin.2 + (d.position.2 : Int) + ((d.template_size.2 / 2 : Nat) : Int) +
              config.click_offset_y) d.template_size d.scale,
          .error ("Click failed: " ++ e)], last_click) ∧
      (∀ (frame₂ : CapturedFrame) (d₂ : Detection) (now₂ : Nat),
        detect ncc frame₂.image template = some d₂ →
        config.threshold ≤ d₂.score →
        now ≤ now₂ →
        ∃ sc rest,
          (handle_frame ncc click config template frame₂
            (handle_frame ncc click config template frame last_click now cooldown).2
            now₂ cooldown).1 =
            .detection d₂.score d₂.position sc d₂.template_size d₂.scale :: rest)) ∧
    (∀ (ncc : GrayImage → GrayImage → Nat → Nat → ℚ)
        (click : Int → Int → Except String Unit)
        (config : AppConfig) (template : Template) (frame : CapturedFrame)
        (last_click : Option Nat) (now cooldown : Nat),
      (handle_frame ncc click config template frame last_click now cooldown).2 ≠
        last_click →
      (handle_frame ncc click config template frame last_click now cooldown).2 =
        some now ∧
      ∃ d sc u, detect ncc frame.image template = some d ∧
        config.threshold ≤ d.score ∧ click sc.1 sc.2 = .ok u ∧
        (handle_frame ncc click config template frame last_click now cooldown).1 =
          [.detection d.score d.position sc d.template_size d.scale, .clicked sc]) := by
  constructor
  · intro ncc click config template frame last_click now cooldown d e hd hth hgate hfail
    have hth' : ¬ d.score < config.threshold := not_lt.2 hth
    obtain ⟨-, herr⟩ := handle_frame_permitted hd hth' hgate
    have heq := herr e hfail
    refine ⟨heq, ?_⟩
    intro frame₂ d₂ now₂ hd₂ hth₂ hnow
    have hstate : (handle_frame ncc click config template frame last_click now
        cooldown).2 = last_click := by rw [heq]
    rw [hstate]
    have hgate₂ : last_click = none ∨
        ∃ last, last_click = some last ∧ cooldown ≤ now₂ - last := by
      rcases hgate with hl | ⟨last, hl, hc⟩
      · exact Or.inl hl
      · refine Or.inr ⟨last, hl, le_trans hc ?_⟩
        exact Nat.sub_le_sub_right hnow last
    have hth₂' : ¬ d₂.score < config.threshold := not_lt.2 hth₂
    obtain ⟨hok₂, herr₂⟩ := handle_frame_permitted hd₂ hth₂' hgate₂
    cases hclick₂ : click
        (frame₂.origin.1 + (d₂.position.1 : Int) + ((d₂.template_size.1 / 2 : Nat) : Int) +
          config.click_offset_x)
        (frame₂.origin.2 + (d₂.position.2 : Int) + ((d₂.template_size.2 / 2 : Nat) : Int) +
          config.click_offset_y) with
    | ok u => rw [hok₂ u hclick₂]; exact ⟨_, _, rfl⟩
    | error e₂ => rw [herr₂ e₂ hclick₂]; exact ⟨_, _, rfl⟩
  · intro ncc click config template frame last_click now cooldown hne
    cases hdet : detect ncc frame.image template with
    | none => exact absurd (congrArg Prod.snd (handle_frame_no_detection hdet)) hne
    | some d =>
      by_cases hlt : d.score < config.threshold
      · exact absurd (congrArg Prod.snd (handle_frame_below_threshold hdet hlt)) hne
      · have hgate : last_click = none ∨
            ∃ last, last_click = some last ∧ cooldown ≤ now - last := by
          cases hl : last_click with
          | none => exact Or.inl rfl
          | some last =>
            by_cases he : now - last < cooldown
            · exact absurd (congrArg Prod.snd
                (handle_frame_suppressed hdet hlt hl he)) hne
            · exact Or.inr ⟨last, rfl, not_lt.1 he⟩
        obtain ⟨hok, herr⟩ := handle_frame_permitted hdet hlt hgate
        cases hclick : click
            (frame.origin.1 + (d.position.1 : Int) + ((d.template_size.1 / 2 : Nat) : Int) +
              config.click_offset_x)
            (frame.origin.2 + (d.position.2 : Int) + ((d.template_size.2 / 2 : Nat) : Int) +
              config.click_offset_y) with
        | ok u =>
          have heq := hok u hclick
          rw [heq]
          exact ⟨rfl, d, _, u, rfl, not_lt.1 hlt, hclick, rfl⟩
        | error e =>
          exact absurd (congrArg Prod.snd (herr e hclick)) hne

/-- Witness for C6: with the always-failing sink, the concrete permitted
tick leaves the gate state `none`, emits the click-failure error, and the
next qualifying tick at a later instant again emits a detection event. -/
theorem sink_failure_keeps_gate_witness :
    clickFail 110 199 = .error "boom" ∧
    handle_frame ncc3 clickFail cfg1 tmpl3 cap55 none 777 4000000000 =
      ([.detection 5 (1, 0) (110, 199) (4, 4) 1, .error "Click failed: boom"], none) ∧
    ∃ sc rest,
      (handle_frame ncc3 clickFail cfg1 tmpl3 cap55
        (handle_frame ncc3 clickFail cfg1 tmpl3 cap55 none 777 4000000000).2
        888 4000000000).1 =
        WorkerEvent.detection 5 (1, 0) sc (4, 4) 1 :: rest := by
  have h := (sink_failure_keeps_gate.1 ncc3 clickFail cfg1 tmpl3 cap55 none 777 4000000000
    ⟨5, (1, 0), (4, 4), 1⟩ "boom" detect_eval_c3 (by norm_num [cfg1]) (Or.inl rfl)
    (by rfl))
  refine ⟨rfl, ?_, ?_⟩
  · simpa [cap55, cfg1] using h.1
  · exact h.2 cap55 ⟨5, (1, 0), (4, 4), 1⟩ 888 detect_eval_c3 (by norm_num [cfg1])
      (by norm_num)

/-- C4: for every frame such that each variant of the marker model exceeds
the frame in width or in height, the matcher skips every variant and
returns none. -/
theorem detect_size_fit_skip
    (ncc : GrayImage → GrayImage → Nat → Nat → ℚ)
    (frame : GrayImage) (template : Template)
    (h : ∀ v ∈ template.variants, frame.width < v.width ∨ frame.height < v.height) :
    detect ncc frame template = none := by
  rw [detect]
  exact detect_fold_skip ncc frame template.variants none h

/-- Witness for C4: on a 3×3 frame every 4×4 variant of the concrete
template is too large and the matcher returns none. -/
theorem detect_size_fit_skip_witness :
    (∀ v ∈ tmpl3.variants, frame33.width < v.width ∨ frame33.height < v.height) ∧
    detect ncc3 frame33 tmpl3 = none :=
  ⟨by decide, detect_size_fit_skip ncc3 frame33 tmpl3 (by decide)⟩

/-- C3: the matcher returns the detection with the strictly greatest best
score over all variants that fit in the frame; on an exact score tie the
variant earlier in the scale ladder wins, and inside one variant's response
surface an exact tie is resolved toward the earlier row-major position. -/
theorem matcher_selects_best :
    (∀ (s : Surface) (sc : ℚ) (x y : Nat), find_peak s = some (sc, x, y) →
      s.score x y = sc ∧
      (∀ a b, a < s.width → b < s.height → s.score a b ≤ sc) ∧
      (∀ a b, a < s.width → b < s.height → rowMajorLt (a, b) (x, y) →
        s.score a b < sc)) ∧
    (∀ (ncc : GrayImage → GrayImage → Nat → Nat → ℚ) (frame : GrayImage)
        (template : Template) (d : Detection),
      detect ncc frame template = some d →
      ∃ l₁ v l₂, template.variants = l₁ ++ v :: l₂ ∧
        v.width ≤ frame.width ∧ v.height ≤ frame.height ∧
        find_peak (match_template ncc frame v.image) =
          some (d.score, d.position.1, d.position.2) ∧
        d.template_size = (v.width, v.height) ∧ d.scale = v.scale ∧
        (∀ w ∈ l₁, w.width ≤ frame.width → w.height ≤ frame.height →
          ∀ sc p q, find_peak (match_template ncc frame w.image) = some (sc, p, q) →
            sc < d.score) ∧
        (∀ w ∈ l₂, w.width ≤ frame.width → w.height ≤ frame.height →
          ∀ sc p q, find_peak (match_template ncc frame w.image) = some (sc, p, q) →
            sc ≤ d.score)) := by
  constructor
  · intro s sc x y h
    obtain ⟨-, -, hval, hmax, hfirst⟩ := find_peak_spec h
    exact ⟨hval, hmax, hfirst⟩
  · intro ncc frame template d h
    exact detect_spec h

/-- Witness for C3 on the concrete tie template: the peak of the first
variant's tied surface is the earlier row-major position (1,0), the
position (0,0) before it scores strictly less, and the detection picks the
first variant of the ladder even though the second ties at score 5. -/
theorem matcher_selects_best_witness :
    (find_peak surf3 = some (5, 1, 0) ∧
      surf3.score 1 0 = 5 ∧ surf3.score 0 0 < 5 ∧ surf3.score 0 1 ≤ 5) ∧
    (detect ncc3 frame55 tmpl3 = some ⟨5, (1, 0), (4, 4), 1⟩ ∧
      ∃ l₁ v l₂, tmpl3.variants = l₁ ++ v :: l₂ ∧
        v.width ≤ frame55.width ∧ v.height ≤ frame55.height ∧
        find_peak (match_template ncc3 frame55 v.image) = some (5, 1, 0) ∧
        ((4 : Nat), (4 : Nat)) = (v.width, v.height) ∧ (1 : ℚ) = v.scale ∧
        (∀ w ∈ l₁, w.width ≤ frame55.width → w.height ≤ frame55.height →
          ∀ sc p q, find_peak (match_template ncc3 frame55 w.image) = some (sc, p, q) →
            sc < 5) ∧
        (∀ w ∈ l₂, w.width ≤ frame55.width → w.height ≤ frame55.height →
          ∀ sc p q, find_peak (match_template ncc3 frame55 w.image) = some (sc, p, q) →
            sc ≤ 5)) := by
  have hpk : find_peak surf3 = some (5, 1, 0) := by decide
  obtain ⟨hval, hmax, hfirst⟩ := matcher_selects_best.1 surf3 5 1 0 hpk
  refine ⟨⟨hpk, hval, ?_, ?_⟩, detect_eval_c3, ?_⟩
  · exact hfirst 0 0 (by decide) (by decide) (Or.inr ⟨rfl, Nat.zero_lt_one⟩)
  · exact hmax 0 1 (by decide) (by decide)
  · exact matcher_selects_best.2 ncc3 frame55 tmpl3 ⟨5, (1, 0), (4, 4), 1⟩ detect_eval_c3

/-- C9: whenever the matcher returns a detection on a marker model built
from a base image, the matched variant fits the frame (width and height at
most the frame's), the detection's scale is one of the ladder's factors,
and the position is a valid alignment: position + variant size stays inside
the frame in both coordinates. -/
theorem detect_result_valid
    (ncc : GrayImage → GrayImage → Nat → Nat → ℚ)
    (rs : GrayImage → Nat → Nat → Nat → Nat → Nat)
    (frame base : GrayImage) (d : Detection)
    (h : detect ncc frame ⟨build_variants rs base⟩ = some d) :
    d.template_size.1 ≤ frame.width ∧ d.template_size.2 ≤ frame.height ∧
    d.scale ∈ TEMPLATE_SCALE_FACTORS ∧
    d.position.1 + d.template_size.1 ≤ frame.width ∧
    d.position.2 + d.template_size.2 ≤ frame.height := by
  obtain ⟨l₁, v, l₂, hsplit, hw, hh, hfp, hsize, hscale, -, -⟩ := detect_spec h
  have hv : v ∈ build_variants rs base := by
    have hx : v ∈ (⟨build_variants rs base⟩ : Template).variants := by
      rw [hsplit]
      exact List.mem_append_right l₁ (List.mem_cons_self v l₂)
    exact hx
  have hmem := build_variants_mem hv
  have hsc : d.scale ∈ TEMPLATE_SCALE_FACTORS := by rw [hscale]; exact hmem.1
  obtain ⟨hx, hy, -, -, -⟩ := find_peak_spec hfp
  have hx' : d.position.1 < frame.width - v.width + 1 := hx
  have hy' : d.position.2 < frame.height - v.height + 1 := hy
  have hts1 : d.template_size.1 = v.width := congrArg Prod.fst hsize
  have hts2 : d.template_size.2 = v.height := congrArg Prod.snd hsize
  refine ⟨?_, ?_, hsc, ?_, ?_⟩
  · rw [hts1]; exact hw
  · rw [hts2]; exact hh
  · rw [hts1]; omega
  · rw [hts2]; omega

/-- Witness for C9: on the built 4×4 model inside the 4×4 frame the matcher
returns the 0.9-scale 4×4 variant at position (0,0), which fits exactly. -/
theorem detect_result_valid_witness :
    detect ncc0 frame44 ⟨build_variants rs0 base44⟩ =
      some ⟨0, (0, 0), (4, 4), 0.9⟩ ∧
    ((4 : Nat) ≤ frame44.width ∧ (4 : Nat) ≤ frame44.height ∧
      (0.9 : ℚ) ∈ TEMPLATE_SCALE_FACTORS ∧
      0 + 4 ≤ frame44.width ∧ 0 + 4 ≤ frame44.height) :=
  ⟨detect_eval_c9,
    detect_result_valid ncc0 rs0 frame44 base44 ⟨0, (0, 0), (4, 4), 0.9⟩ detect_eval_c9⟩

/-- C7: the scale ladder runs monotonically from 0.65 to 1.30 in 0.05
steps; the marker model holds one variant per retained factor, in ladder
order, a factor being dropped exactly when it is nonpositive or its rounded
target size is below 4 in either dimension; every retained variant's
dimensions equal the rounded target size (hence are at least 4×4); the only
ladder factor within `f32::EPSILON` of 1.0 is 1.0 itself, whose variant
reuses the original pixel grid unchanged, while every other retained factor
is resampled to its target dimensions. -/
theorem build_variants_ladder :
    (TEMPLATE_SCALE_FACTORS.head? = some 0.65 ∧
      TEMPLATE_SCALE_FACTORS.getLast? = some 1.3 ∧
      TEMPLATE_SCALE_FACTORS.Chain' (fun a b => a < b ∧ b = a + 0.05)) ∧
    (∀ (base : GrayImage) (s : ℚ), keepScale base s = true ↔
      (0 < s ∧ 4 ≤ targetDim base.width s ∧ 4 ≤ targetDim base.height s)) ∧
    (∀ (rs : GrayImage → Nat → Nat → Nat → Nat → Nat) (base : GrayImage),
      (build_variants rs base).map (fun v => v.scale) =
        TEMPLATE_SCALE_FACTORS.filter (keepScale base)) ∧
    (∀ s ∈ TEMPLATE_SCALE_FACTORS, (|s - 1| < EPSILON_F32 ↔ s = 1)) ∧
    (∀ (rs : GrayImage → Nat → Nat → Nat → Nat → Nat) (base : GrayImage),
      ∀ v ∈ build_variants rs base,
        v.width = targetDim base.width v.scale ∧
        v.height = targetDim base.height v.scale ∧
        4 ≤ v.width ∧ 4 ≤ v.height ∧
        (v.scale = 1 → v.image = base) ∧
        (v.scale ≠ 1 → v.image =
          resize rs base (targetDim base.width v.scale)
            (targetDim base.height v.scale))) := by
  refine ⟨⟨rfl, rfl, ?_⟩, ?_, ?_, scale_factors_eps, ?_⟩
  · rw [TEMPLATE_SCALE_FACTORS]
    norm_num [List.chain'_cons]
  · intro base s
    simp only [keepScale, Bool.and_eq_true, Bool.not_eq_true', decide_eq_false_iff_not,
      not_le, not_lt, and_assoc]
  · intro rs base
    exact (build_variants_from_spec rs base TEMPLATE_SCALE_FACTORS).1
  · intro rs base v hv
    obtain ⟨-, -, hw, hh, h4w, h4h, hone, hne⟩ := build_variants_mem hv
    exact ⟨hw, hh, h4w, h4h, hone, hne⟩

/-- Witness for C7 at the concrete 4×4 base: the retained factor 0.9 is
kept, its variant is resampled to the 4×4 target size, and the 1.0 variant
reuses the base image. -/
theorem build_variants_ladder_witness :
    ((⟨0.9, resize rs0 base44 4 4⟩ : TemplateVariant) ∈ build_variants rs0 base44 ∧
      (⟨1.0, base44⟩ : TemplateVariant) ∈ build_variants rs0 base44) ∧
    ((0.9 : ℚ) ∈ TEMPLATE_SCALE_FACTORS ∧ ¬((0.9 : ℚ) = 1)) ∧
    (resize rs0 base44 4 4 : GrayImage).width = targetDim base44.width 0.9 ∧
    ((1.0 : ℚ) = 1 → (⟨1.0, base44⟩ : TemplateVariant).image = base44) := by
  have hm9 : (⟨0.9, resize rs0 base44 4 4⟩ : TemplateVariant) ∈ build_variants rs0 base44 := by
    rw [build_variants_eval]
    exact List.mem_cons_self _ _
  have hm1 : (⟨1.0, base44⟩ : TemplateVariant) ∈ build_variants rs0 base44 := by
    rw [build_variants_eval]
    simp
  have h9 := build_variants_ladder.2.2.2.2 rs0 base44 _ hm9
  have h1 := build_variants_ladder.2.2.2.2 rs0 base44 _ hm1
  have hne9 : ¬((0.9 : ℚ) = 1) := by norm_num
  refine ⟨⟨hm9, hm1⟩, ⟨?_, hne9⟩, h9.1, h1.2.2.2.2.1⟩
  · rw [TEMPLATE_SCALE_FACTORS]
    simp

/-! ### Worker loop lemmas -/

/-- Internal lemma: a tick never sends the `Stopped` event. -/
theorem handle_frame_no_stopped
    (ncc : GrayImage → GrayImage → Nat → Nat → ℚ) (click : Int → Int → Except String Unit)
    (config : AppConfig) (template : Template) (frame : CapturedFrame)
    (last_click : Option Nat) (now cooldown : Nat) :
    WorkerEvent.stopped ∉
      (handle_frame ncc click config template frame last_click now cooldown).1 := by
  cases hdet : detect ncc frame.image template with
  | none => rw [handle_frame_no_detection hdet]; simp
  | some d =>
    by_cases hlt : d.score < config.threshold
    · rw [handle_frame_below_threshold hdet hlt]; simp
    · have hfire : (last_click = none ∨
          ∃ last, last_click = some last ∧ cooldown ≤ now - last) →
          WorkerEvent.stopped ∉
            (handle_frame ncc click config template frame last_click now cooldown).1 := by
        intro hgate
        obtain ⟨hok, herr⟩ := handle_frame_permitted hdet hlt hgate
        cases hclick : click
            (frame.origin.1 + (d.position.1 : Int) + ((d.template_size.1 / 2 : Nat) : Int) +
              config.click_offset_x)
            (frame.origin.2 + (d.position.2 : Int) + ((d.template_size.2 / 2 : Nat) : Int) +
              config.click_offset_y) with
        | ok u => rw [hok u hclick]; simp
        | error e => rw [herr e hclick]; simp
      cases hl : last_click with
      | none =>
        rw [hl] at hfire
        exact hfire (Or.inl rfl)
      | some last =>
        rw [hl] at hfire
        by_cases he : now - last < cooldown
        · rw [handle_frame_suppressed hdet hlt rfl he]; simp
        · exact hfire (Or.inr ⟨last, rfl, not_lt.1 he⟩)

/-- Internal lemma: the loop's trace is either free of `Stopped`, or it is
a `Stopped`-free prefix followed by a single final `Stopped`. -/
theorem run_worker_loop_stopped_last
    (ncc : GrayImage → GrayImage → Nat → Nat → ℚ) (click : Int → Int → Except String Unit)
    (config : AppConfig) (template : Template) (cooldown : Nat) :
    ∀ (env : List TickEnv) (last_click : Option Nat),
      (∃ evs, run_worker_loop ncc click config template cooldown last_click env = evs ∧
        WorkerEvent.stopped ∉ evs) ∨
      (∃ evs, run_worker_loop ncc click config template cooldown last_click env =
          evs ++ [.stopped] ∧ WorkerEvent.stopped ∉ evs) := by
  intro env
  induction env with
  | nil => exact fun last_click => Or.inl ⟨[], rfl, by simp⟩
  | cons t rest ih =>
    intro last_click
    rw [run_worker_loop]
    by_cases ht : t.flag_top
    · rw [if_pos ht]
      exact Or.inr ⟨[], rfl, by simp⟩
    · rw [if_neg ht]
      have hstep : WorkerEvent.stopped ∉
          (match t.capture with
            | .ok frame => handle_frame ncc click config template frame last_click t.now cooldown
            | .error err => ([.error ("Capture failed: " ++ err)], last_click)).1 := by
        cases t.capture with
        | ok frame => exact handle_frame_no_stopped ncc click config template frame _ _ _
        | error err => simp
      by_cases ha : t.flag_after
      · simp only [ha, if_true]
        exact Or.inr ⟨_, rfl, hstep⟩
      · rw [Bool.not_eq_true] at ha
        simp only [ha, Bool.false_eq_true, if_false]
        rcases ih _ with ⟨evs, heq, hno⟩ | ⟨evs, heq, hno⟩
        · refine Or.inl ⟨_ ++ evs, by rw [heq], ?_⟩
          simp only [List.mem_append, not_or]
          exact ⟨hstep, hno⟩
        · refine Or.inr ⟨_ ++ evs, by rw [heq, List.append_assoc], ?_⟩
          simp only [List.mem_append, not_or]
          exact ⟨hstep, hno⟩

/-- Internal lemma: if the cancellation flag is never observed, the loop
never emits `Stopped` (it never exits). -/
theorem run_worker_loop_no_stop
    (ncc : GrayImage → GrayImage → Nat → Nat → ℚ) (click : Int → Int → Except String Unit)
    (config : AppConfig) (template : Template) (cooldown : Nat) :
    ∀ (env : List TickEnv) (last_click : Option Nat),
      (∀ t ∈ env, t.flag_top = false ∧ t.flag_after = false) →
      WorkerEvent.stopped ∉
        run_worker_loop ncc click config template cooldown last_click env := by
  intro env
  induction env with
  | nil => intro last_click _; simp [run_worker_loop]
  | cons t rest ih =>
    intro last_click hflags
    obtain ⟨ht, ha⟩ := hflags t (List.mem_cons_self _ _)
    rw [run_worker_loop, ht]
    simp only [Bool.false_eq_true, if_false, ha]
    have hstep : WorkerEvent.stopped ∉
        (match t.capture with
          | .ok frame => handle_frame ncc click config template frame last_click t.now cooldown
          | .error err => ([.error ("Capture failed: " ++ err)], last_click)).1 := by
      cases t.capture with
      | ok frame => exact handle_frame_no_stopped ncc click config template frame _ _ _
      | error err => simp
    simp only [List.mem_append, not_or]
    exact ⟨hstep, ih _ fun w hw => hflags w (List.mem_cons_of_mem _ hw)⟩

/-- C8: the worker polls the cancellation flag at the top of every
iteration — observing it there emits `Stopped` at once, before any capture
— and again after processing the tick, before sleeping — observing it
there emits the tick's events followed by `Stopped`, ignoring the rest of
the schedule; and in every run the `Stopped` event, when present, is the
final event: no event of any kind follows it. -/
theorem worker_stop_protocol :
    (∀ (ncc : GrayImage → GrayImage → Nat → Nat → ℚ)
        (click : Int → Int → Except String Unit) (config : AppConfig)
        (template : Template) (cooldown : Nat) (last_click : Option Nat)
        (t : TickEnv) (rest : List TickEnv),
      t.flag_top = true →
      run_worker_loop ncc click config template cooldown last_click (t :: rest) =
        [.stopped]) ∧
    (∀ (ncc : GrayImage → GrayImage → Nat → Nat → ℚ)
        (click : Int → Int → Except String Unit) (config : AppConfig)
        (template : Template) (cooldown : Nat) (last_click : Option Nat)
        (t : TickEnv) (rest : List TickEnv),
      t.flag_top = false → t.flag_after = true →
      run_worker_loop ncc click config template cooldown last_click (t :: rest) =
        (match t.capture with
          | .ok frame =>
            (handle_frame ncc click config template frame last_click t.now cooldown).1
          | .error err => [.error ("Capture failed: " ++ err)]) ++ [.stopped]) ∧
    (∀ (ncc : GrayImage → GrayImage → Nat → Nat → ℚ)
        (click : Int → Int → Except String Unit) (config : AppConfig)
        (template : Template) (sendRes : Nat → Bool) (env : List TickEnv),
      (∃ evs, run_worker ncc click config template sendRes env = evs ∧
        WorkerEvent.stopped ∉ evs) ∨
      (∃ evs, run_worker ncc click config template sendRes env =
          evs ++ [.stopped] ∧ WorkerEvent.stopped ∉ evs)) := by
  refine ⟨?_, ?_, ?_⟩
  · intro ncc click config template cooldown last_click t rest ht
    rw [run_worker_loop]
    simp [ht]
  · intro ncc click config template cooldown last_click t rest ht ha
    rw [run_worker_loop]
    simp only [ht, Bool.false_eq_true, if_false, ha, if_true]
    cases t.capture with
    | ok frame => rfl
    | error err => rfl
  · intro ncc click config template sendRes env
    rw [run_worker]
    cases hs : sendRes 0 with
    | false =>
      simp only [Bool.false_eq_true, if_false]
      exact Or.inl ⟨_, rfl, by simp⟩
    | true =>
      simp only [if_true]
      rcases run_worker_loop_stopped_last ncc click config template
          (config.cooldown_ms * NANOS_PER_MILLI) env none with
        ⟨evs, heq, hno⟩ | ⟨evs, heq, hno⟩
      · refine Or.inl ⟨.info "Monitoring active" :: evs, by rw [heq], ?_⟩
        simp only [List.mem_cons, not_or]
        exact ⟨by simp, hno⟩
      · refine Or.inr ⟨.info "Monitoring active" :: evs,
          by rw [heq, List.cons_append], ?_⟩
        simp only [List.mem_cons, not_or]
        exact ⟨by simp, hno⟩

/-- Witness for C8 on concrete schedules: a flag observed at the top stops
the loop before any capture; a flag observed after the tick appends
`Stopped` right after the tick's events; and a full run's trace ends in its
single `Stopped`. -/
theorem worker_stop_protocol_witness :
    run_worker_loop ncc3 clickOk cfg1 tmpl3 4000000000 none [tickStopTop] =
      [.stopped] ∧
    run_worker_loop ncc3 clickOk cfg1 tmpl3 4000000000 none [tickRun] =
      [.detection 5 (1, 0) (110, 199) (4, 4) 1, .clicked (110, 199), .stopped] ∧
    ((∃ evs, run_worker ncc3 clickOk cfg1 tmpl3 sendAll [tickRun] = evs ∧
        WorkerEvent.stopped ∉ evs) ∨
     (∃ evs, run_worker ncc3 clickOk cfg1 tmpl3 sendAll [tickRun] =
        evs ++ [.stopped] ∧ WorkerEvent.stopped ∉ evs)) := by
  refine ⟨worker_stop_protocol.1 ncc3 clickOk cfg1 tmpl3 4000000000 none
    tickStopTop [] rfl, ?_, worker_stop_protocol.2.2 ncc3 clickOk cfg1 tmpl3
    sendAll [tickRun]⟩
  have h := worker_stop_protocol.2.1 ncc3 clickOk cfg1 tmpl3 4000000000 none
    tickRun [] rfl rfl
  rw [h]
  show (handle_frame ncc3 clickOk cfg1 tmpl3 cap55 none 777 4000000000).1 ++
    [WorkerEvent.stopped] = _
  rw [hf_eval_ok]
  rfl

/-- C10: when the receiver is already disconnected at the initial
`Info("Monitoring active")` send, the worker returns at once — the trace
holds only that attempted event, with no `Stopped` and no tick processed;
the results of all later sends are never inspected, so the run depends only
on the first send's outcome; and a worker that has entered the loop exits
(emits `Stopped`) only when the cancellation flag is observed. -/
theorem channel_disconnection :
    (∀ (ncc : GrayImage → GrayImage → Nat → Nat → ℚ)
        (click : Int → Int → Except String Unit) (config : AppConfig)
        (template : Template) (sendRes : Nat → Bool) (env : List TickEnv),
      sendRes 0 = false →
      run_worker ncc click config template sendRes env =
        [.info "Monitoring active"]) ∧
    (∀ (ncc : GrayImage → GrayImage → Nat → Nat → ℚ)
        (click : Int → Int → Except String Unit) (config : AppConfig)
        (template : Template) (s₁ s₂ : Nat → Bool) (env : List TickEnv),
      s₁ 0 = s₂ 0 →
      run_worker ncc click config template s₁ env =
        run_worker ncc click config template s₂ env) ∧
    (∀ (ncc : GrayImage → GrayImage → Nat → Nat → ℚ)
        (click : Int → Int → Except String Unit) (config : AppConfig)
        (template : Template) (sendRes : Nat → Bool) (env : List TickEnv),
      sendRes 0 = true →
      (∀ t ∈ env, t.flag_top = false ∧ t.flag_after = false) →
      WorkerEvent.stopped ∉ run_worker ncc click config template sendRes env) := by
  refine ⟨?_, ?_, ?_⟩
  · intro ncc click config template sendRes env h
    rw [run_worker]
    simp [h]
  · intro ncc click config template s₁ s₂ env h
    rw [run_worker, run_worker, h]
  · intro ncc click config template sendRes env hs hflags
    rw [run_worker]
    simp only [hs, if_true, List.mem_cons, not_or]
    exact ⟨by simp, run_worker_loop_no_stop ncc click config template _ env none hflags⟩

/-- Witness for C10 on concrete schedules: a disconnected receiver at start
yields only the attempted info event even though a tick was available; a
channel that drops every later event yields the same run as a fully
connected one; and with the flag never set the run of a quiet tick contains
no `Stopped`. -/
theorem channel_disconnection_witness :
    run_worker ncc3 clickOk cfg1 tmpl3 sendNone [tickRun] =
      [.info "Monitoring active"] ∧
    run_worker ncc3 clickOk cfg1 tmpl3 sendFirst [tickRun] =
      run_worker ncc3 clickOk cfg1 tmpl3 sendAll [tickRun] ∧
    WorkerEvent.stopped ∉ run_worker ncc3 clickOk cfg1 tmpl3 sendAll [tickQuiet] := by
  refine ⟨channel_disconnection.1 ncc3 clickOk cfg1 tmpl3 sendNone [tickRun] rfl,
    channel_disconnection.2.1 ncc3 clickOk cfg1 tmpl3 sendFirst sendAll [tickRun] rfl,
    channel_disconnection.2.2 ncc3 clickOk cfg1 tmpl3 sendAll [tickQuiet] rfl ?_⟩
  intro t ht
  rw [List.mem_singleton] at ht
  subst ht
  exact ⟨rfl, rfl⟩

end LolAutoAccept
